import Mathlib

/-!
Shallow embedding of the stereo RGB extractor (`bin2tif/terra_bin2tif.py`):
the eligibility filter `check_message` and the conversion orchestrator
`process_message` of class `StereoBin2JpgTiff`, together with proofs of the
specified properties.  External collaborators (Clowder remote store, the
`bin_to_geotiff` decoder, `terrautils` helpers, the filesystem) are modelled
as oracles in an `Env` record and as explicit state in `St`.
-/

namespace Bin2Tif

/-- One entry of `resource['files']`; the `filename` key may be absent. -/
structure FileEntry where
  filename : Option String
  deriving Repr, DecidableEq

/-- The resource description delivered by the host runtime. -/
structure Resource where
  id : String
  datasetName : String
  files : List FileEntry
  local_paths : List String
  deriving Repr, DecidableEq

/-- The `content` part of a metadata document: whether it holds the
`lemnatec_measurement_metadata` key, and an optional `files_created` list. -/
structure Content where
  hasLemnatec : Bool
  filesCreated : Option (List String)
  deriving Repr, DecidableEq

/-- A metadata document: optional `agent.name` and optional `content`. -/
structure Doc where
  agentName : Option String
  content : Option Content
  deriving Repr, DecidableEq

/-- Oracles for the repository-external collaborators: path construction
(`terrautils.extractors.get_output_directory` / `get_output_filename`),
decode helpers (`bin_to_geotiff.get_image_shape`, `lower_keys`,
`terrautils.extractors.calculate_gps_bounds`), file sizes, upload identifiers
returned by Clowder, and JSON parsing of sidecar files. -/
structure Env where
  getOutputDirectory : String → String → String
  getOutputFilename : String → String → String
  getImageShape : Content → String → Nat
  calcGpsBounds : Content → Nat × Nat
  lowerKeys : Content → Content
  sizeOf : String → Nat
  uploadId : String → String
  jsonOf : String → List Doc

/-- Extractor configuration: output root, overwrite flag, extractor name,
host URL. -/
structure Config where
  outputRoot : String
  overwrite : Bool
  extractorName : String
  host : String

/-- Verdict of `check_message`. -/
inductive CheckMessage where
  | ignore
  | download
  deriving Repr, DecidableEq

/-- Python's `str.endswith`, on the character lists of the strings (kept
kernel-computable). -/
def endsWithS (s suff : String) : Bool := suff.data.isSuffixOf s.data

/-- One iteration of the loop over `resource['files']` (lines 76-81):
set `found_left` / `found_right` on the matching suffix (note the `elif`). -/
def scanLRStep (acc : Bool × Bool) (f : FileEntry) : Bool × Bool :=
  match f.filename with
  | some n =>
      if endsWithS n "_left.bin" then (true, acc.2)
      else if endsWithS n "_right.bin" then (acc.1, true)
      else acc
  | none => acc

/-- The loop over `resource['files']` looking for `_left.bin` / `_right.bin`
suffixes (lines 74-81). -/
def scanLR (files : List FileEntry) : Bool × Bool :=
  files.foldl scanLRStep (false, false)

/-- Test `'content' in m and 'lemnatec_measurement_metadata' in m['content']`. -/
def hasLemnatecKey (m : Doc) : Bool :=
  match m.content with
  | some c => c.hasLemnatec
  | none => false

/-- Test `'agent' in m and 'name' in m['agent'] and
m['agent']['name'].endswith(extractor_name)`. -/
def agentMatches (name : String) (m : Doc) : Bool :=
  match m.agentName with
  | some n => endsWithS n name
  | none => false

/-- `os.path.join` as used here (directory followed by file name). -/
def pathJoin (a b : String) : String := a ++ "/" ++ b

/-- The four target output paths, in the order left-jpg, left-tif, right-jpg,
right-tif, computed from the dataset name and the configured output root as
in lines 86-93 and 125-136. -/
def outPaths (env : Env) (cfg : Config) (name : String) :
    String × String × String × String :=
  let out_dir := env.getOutputDirectory cfg.outputRoot name
  let lbase := pathJoin out_dir (env.getOutputFilename name "left")
  let rbase := pathJoin out_dir (env.getOutputFilename name "right")
  (lbase ++ "jpg", lbase ++ "tif", rbase ++ "jpg", rbase ++ "tif")

/-- The metadata loop of `check_message` (lines 100-108): early `ignore`
return (`none`) when, with the overwrite flag unset, a document's agent name
ends with the extractor's name; otherwise accumulate whether any document
carries the measurement-metadata key. -/
def metaScan (overwrite : Bool) (name : String) :
    List Doc → Bool → Option Bool
  | [], fm => some fm
  | m :: rest, fm =>
      if ¬ overwrite ∧ agentMatches name m then none
      else metaScan overwrite name rest (fm || hasLemnatecKey m)

/-- `StereoBin2JpgTiff.check_message` (lines 69-113).  `isLatest` is the
oracle value of `terrautils.extractors.is_latest_file(resource)`; `fs` is the
set of files present on disk; `md` is the result of the unfiltered
`download_metadata` call. -/
def checkMessage (env : Env) (cfg : Config) (isLatest : Bool)
    (fs : List String) (r : Resource) (md : List Doc) : CheckMessage :=
  if ¬ isLatest then .ignore
  else
    let fl := (scanLR r.files).1
    let fr := (scanLR r.files).2
    if ¬ (fl ∧ fr) then .ignore
    else
      match outPaths env cfg r.datasetName with
      | (ljpg, ltif, rjpg, rtif) =>
          if ¬ cfg.overwrite ∧ (ljpg ∈ fs ∧ rjpg ∈ fs ∧ ltif ∈ fs ∧ rtif ∈ fs)
          then .ignore
          else
            match metaScan cfg.overwrite cfg.extractorName md false with
            | none => .ignore
            | some fm => if fl ∧ fr ∧ fm then .download else .ignore

/-- A decoded in-memory image: the shape and the binary path it came from
(the decode itself is external; decode events are counted in the state). -/
abbrev Image := Nat × String

/-- `bin_to_geotiff.process_image(shape, path, None)` as a pure value. -/
def mkImage (shape : Nat) (binPath : String) : Image := (shape, binPath)

/-- Python-level failures the orchestrator can raise. -/
inductive PyError where
  | valueError (msg : String)
  | unboundLocal (name : String)
  | keyError (key : String)
  deriving Repr, DecidableEq

/-- World state threaded through the orchestrator: files on disk, created
directories, remote metadata documents, decode-event counters for the left
and right binaries, the log of file uploads (paths), the log of completion
records uploaded, and the telemetry log of (created, bytes) entries. -/
structure St where
  fs : List String
  dirs : List String
  remote : List Doc
  decL : Nat
  decR : Nat
  upls : List String
  recs : List Doc
  telem : List (Nat × Nat)
  deriving Repr, DecidableEq

/-- The values a successful run returns for inspection: the `created`
counter, the `bytes` counter and the final `uploaded_file_ids` list. -/
structure RunStats where
  created : Nat
  bytes : Nat
  uploadedIds : List String
  deriving Repr, DecidableEq

/-- Accumulator for the four per-artifact blocks: state plus the run-local
variables `uploaded_file_ids`, `created`, `bytes`. -/
structure Acc where
  st : St
  ids : List String
  created : Nat
  bytes : Nat
  deriving Repr, DecidableEq

/-- Creating a file on disk (no-op when already present). -/
def insertFile (fs : List String) (p : String) : List String :=
  if p ∈ fs then fs else fs ++ [p]

/-- Removing a file from disk (source of a `shutil.move`). -/
def removeFile (fs : List String) (p : String) : List String :=
  fs.filter (fun q => q ≠ p)

/-- Which side's binary a decode event concerns. -/
inductive Side where
  | left
  | right
  deriving Repr, DecidableEq

/-- Record one decode event of the given side's binary. -/
def bumpDec (s : Side) (st : St) : St :=
  match s with
  | .left => { st with decL := st.decL + 1 }
  | .right => { st with decR := st.decR + 1 }

/-- `os.makedirs` guarded by `os.path.exists` (lines 127-128). -/
def mkdirs (st : St) (d : String) : St :=
  if d ∈ st.dirs then st else { st with dirs := st.dirs ++ [d] }

/-- The inner loop of the sidecar scan (lines 142-145): first document whose
content holds the measurement-metadata key wins (`break`); when none matches
the previously scanned value is kept. -/
def findLemnatec (env : Env) : List Doc → Option Content → Option Content
  | [], acc => acc
  | m :: rest, acc =>
      match m.content with
      | some c =>
          if c.hasLemnatec then some (env.lowerKeys c)
          else findLemnatec env rest acc
      | none => findLemnatec env rest acc

/-- One iteration of the loop over `resource['local_paths']` (lines 139-149). -/
def scanInputsStep (env : Env)
    (acc : Option String × Option String × Option Content) (fname : String) :
    Option String × Option String × Option Content :=
  if endsWithS fname "_dataset_metadata.json" then
    (acc.1, acc.2.1, findLemnatec env (env.jsonOf fname) acc.2.2)
  else if endsWithS fname "_left.bin" then (some fname, acc.2.1, acc.2.2)
  else if endsWithS fname "_right.bin" then (acc.1, some fname, acc.2.2)
  else acc

/-- The loop over `resource['local_paths']` (lines 139-149) resolving the
left binary, the right binary and the capture metadata. -/
def scanInputs (env : Env) (paths : List String) :
    Option String × Option String × Option Content :=
  paths.foldl (scanInputsStep env) (none, none, none)

/-- `pyclowder.files.upload_to_dataset` plus the append to
`uploaded_file_ids`. -/
def uploadFile (env : Env) (p : String) (A : Acc) : Acc :=
  { A with st := { A.st with upls := A.st.upls ++ [p] },
           ids := A.ids ++ [env.uploadId p] }

/-- One JPG block (lines 162-173 resp. 190-200): when the target is absent or
overwrite is forced, decode the binary, create the JPG, upload it when it is
not among the resource's local paths, and bump `created` / `bytes`; otherwise
set `skipped_jpg`.  Returns the accumulator, the (possibly still unbound)
image variable and the `skipped_jpg` flag. -/
def jpgBlock (env : Env) (cfg : Config) (r : Resource) (shape : Nat)
    (binPath jpgPath : String) (side : Side) (A : Acc) :
    Acc × Option Image × Bool :=
  if jpgPath ∉ A.st.fs ∨ cfg.overwrite then
    let img := mkImage shape binPath
    let A1 : Acc := { A with st := bumpDec side A.st }
    let A2 : Acc := { A1 with st := { A1.st with fs := insertFile A1.st.fs jpgPath } }
    let A3 : Acc := if jpgPath ∉ r.local_paths then uploadFile env jpgPath A2 else A2
    ({ A3 with created := A3.created + 1,
               bytes := A3.bytes + env.sizeOf jpgPath }, some img, false)
  else (A, none, true)

/-- One geoTIFF block (lines 175-186 resp. 202-212): when the target is
absent or overwrite is forced, re-decode only if the JPG step was skipped,
write the temporary TIFF, move it into place, upload when not among the
local paths, and bump the counters.  Referencing the image variable while it
is unbound is the Python `NameError` family, surfaced as `unboundLocal`. -/
def tiffBlock (env : Env) (cfg : Config) (r : Resource) (shape : Nat)
    (binPath tiffPath tmpPath : String) (gpsBounds : Nat) (side : Side)
    (varName : String) (img0 : Option Image) (skipped : Bool) (A : Acc) :
    Acc × Except PyError (Option Image) :=
  if tiffPath ∉ A.st.fs ∨ cfg.overwrite then
    let pair :=
      if skipped then ({ A with st := bumpDec side A.st }, some (mkImage shape binPath))
      else (A, img0)
    match pair.2 with
    | none => (pair.1, .error (.unboundLocal varName))
    | some im =>
        let B := pair.1
        let B1 : Acc := { B with st := { B.st with fs := insertFile B.st.fs tmpPath } }
        let B2 : Acc := { B1 with st :=
          { B1.st with fs := insertFile (removeFile B1.st.fs tmpPath) tiffPath } }
        let B3 : Acc := if tiffPath ∉ r.local_paths then uploadFile env tiffPath B2 else B2
        ({ B3 with created := B3.created + 1,
                   bytes := B3.bytes + env.sizeOf tiffPath }, .ok (some im))
  else (A, .ok img0)

/-- `del left_image` / `del right_image` (lines 187, 213): deleting a local
variable that was never assigned raises `UnboundLocalError`. -/
def delImage (varName : String) (img : Option Image) : Except PyError Unit :=
  match img with
  | none => .error (.unboundLocal varName)
  | some _ => .ok ()

/-- The previously recorded identifiers of a completion record
(`m['content']['files_created']`, empty when absent). -/
def contentOldIds (m : Doc) : List String :=
  match m.content with
  | some c => c.filesCreated.getD []
  | none => []

/-- `download_metadata` filtered by this extractor's name. -/
def filterAgent (name : String) (l : List Doc) : List Doc :=
  l.filter (fun m => agentMatches name m)

/-- `remove_metadata`: drop every document authored by this extractor. -/
def removeAgentDocs (name : String) (l : List Doc) : List Doc :=
  l.filter (fun m => ¬ agentMatches name m)

/-- The completion-record loop (lines 218-223): for each downloaded document
whose agent name matches, read `m['content']` (a `KeyError` when absent),
append its `files_created` list to `uploaded_file_ids` when present, and call
`remove_metadata`. -/
def recordsLoop (name : String) :
    List Doc → St → List String → St × Except PyError (List String)
  | [], st, ids => (st, .ok ids)
  | m :: rest, st, ids =>
      if agentMatches name m then
        match m.content with
        | none => (st, .error (.keyError "content"))
        | some c =>
            let ids1 := match c.filesCreated with
              | some l => ids ++ l
              | none => ids
            let st1 : St := { st with remote := removeAgentDocs name st.remote }
            recordsLoop name rest st1 ids1
      else recordsLoop name rest st ids

/-- Modelled from the spec: `terrautils.extractors.build_metadata` is an
external collaborator not present in this repository; per the spec's
Processing Record description it produces a dataset metadata document
authored by this extractor (agent name ending in the extractor's name) whose
content carries the `files_created` identifier list. -/
def buildMetadata (host name : String) (ids : List String) : Doc :=
  { agentName := some (host ++ "extractors/" ++ name),
    content := some { hasLemnatec := false, filesCreated := some ids } }

/-- The temporary TIFF path `"/home/extractor/" + dataset_name + ".tif"`. -/
def tmpTiffPath (name : String) : String := "/home/extractor/" ++ name ++ ".tif"

/-- `StereoBin2JpgTiff.process_message` (lines 115-233) as a state
transformer: returns the state reflecting all effects performed before a
possible exception, and either the exception or the run's counters. -/
def processMessage (env : Env) (cfg : Config) (r : Resource) (st0 : St) :
    St × Except PyError RunStats :=
  let out_dir := env.getOutputDirectory cfg.outputRoot r.datasetName
  let st := mkdirs st0 out_dir
  match outPaths env cfg r.datasetName with
  | (left_jpg, left_tiff, right_jpg, right_tiff) =>
    match scanInputs env r.local_paths with
    | (some img_left, some img_right, some metadata) =>
        let left_shape := env.getImageShape metadata "left"
        let right_shape := env.getImageShape metadata "right"
        let gb := env.calcGpsBounds metadata
        let out_tmp_tiff := tmpTiffPath r.datasetName
        let A0 : Acc := ⟨st, [], 0, 0⟩
        match jpgBlock env cfg r left_shape img_left left_jpg .left A0 with
        | (A1, limg, lskip) =>
          match tiffBlock env cfg r left_shape img_left left_tiff out_tmp_tiff
              gb.1 .left "left_image" limg lskip A1 with
          | (A2, .error e) => (A2.st, .error e)
          | (A2, .ok limg2) =>
            match delImage "left_image" limg2 with
            | .error e => (A2.st, .error e)
            | .ok _ =>
              match jpgBlock env cfg r right_shape img_right right_jpg .right A2 with
              | (A3, rimg, rskip) =>
                match tiffBlock env cfg r right_shape img_right right_tiff
                    out_tmp_tiff gb.2 .right "right_image" rimg rskip A3 with
                | (A4, .error e) => (A4.st, .error e)
                | (A4, .ok rimg2) =>
                  match delImage "right_image" rimg2 with
                  | .error e => (A4.st, .error e)
                  | .ok _ =>
                    match recordsLoop cfg.extractorName
                        (filterAgent cfg.extractorName A4.st.remote)
                        A4.st A4.ids with
                    | (st5, .error e) => (st5, .error e)
                    | (st5, .ok allIds) =>
                      let newDoc := buildMetadata cfg.host cfg.extractorName allIds
                      let st6 : St := { st5 with
                        remote := st5.remote ++ [newDoc],
                        recs := st5.recs ++ [newDoc] }
                      let st7 : St := { st6 with
                        telem := st6.telem ++ [(A4.created, A4.bytes)] }
                      (st7, .ok ⟨A4.created, A4.bytes, allIds⟩)
    | _ =>
        (st, .error (.valueError
          "could not locate each of left+right+metadata in processing"))

/-! Concrete fixtures used by the closed counterexamples and witnesses. -/

/-- A concrete instantiation of the external oracles. -/
def envW : Env where
  getOutputDirectory := fun root name => root ++ "/" ++ name
  getOutputFilename := fun name side => name ++ "_" ++ side ++ "."
  getImageShape := fun _ _ => 5
  calcGpsBounds := fun _ => (1, 2)
  lowerKeys := fun c => c
  sizeOf := fun _ => 10
  uploadId := fun p => p ++ "#id"
  jsonOf := fun p =>
    if p = "m_dataset_metadata.json" then
      [{ agentName := some "other",
         content := some { hasLemnatec := true, filesCreated := none } }]
    else if p = "nokey_dataset_metadata.json" then
      [{ agentName := some "other",
         content := some { hasLemnatec := false, filesCreated := none } }]
    else []

/-- Concrete configuration with the overwrite flag unset. -/
def cfgW : Config where
  outputRoot := "out"
  overwrite := false
  extractorName := "terra.stereo-rgb.bin2tif"
  host := "http://clowder/"

/-- Concrete configuration with the overwrite flag set. -/
def cfgWo : Config where
  outputRoot := "out"
  overwrite := true
  extractorName := "terra.stereo-rgb.bin2tif"
  host := "http://clowder/"

/-- A resource with both binaries and a key-carrying metadata sidecar. -/
def resW : Resource where
  id := "d1"
  datasetName := "ds"
  files := [⟨some "a_left.bin"⟩, ⟨some "a_right.bin"⟩]
  local_paths := ["a_left.bin", "a_right.bin", "m_dataset_metadata.json"]

/-- The empty starting state. -/
def stW : St where
  fs := []
  dirs := []
  remote := []
  decL := 0
  decR := 0
  upls := []
  recs := []
  telem := []

/-- A resource with a left binary but no right binary. -/
def rW6 : Resource := { resW with files := [⟨some "a_left.bin"⟩, ⟨none⟩] }

/-- A metadata document carrying the measurement-metadata key. -/
def docKey : Doc := ⟨some "someone", some ⟨true, none⟩⟩

/-- A metadata document without the measurement-metadata key. -/
def docNoKey : Doc := ⟨some "someone", some ⟨false, none⟩⟩

/-- The four concrete target output paths of dataset `ds` under root `out`. -/
def fsAll : List String :=
  ["out/ds/ds_left.jpg", "out/ds/ds_left.tif",
   "out/ds/ds_right.jpg", "out/ds/ds_right.tif"]

/-- A resource whose sidecar parses but carries no key document. -/
def rNoKey : Resource :=
  { resW with local_paths := ["a_left.bin", "a_right.bin", "nokey_dataset_metadata.json"] }

/-- A resource missing the right binary among its local paths. -/
def rMiss : Resource :=
  { resW with local_paths := ["a_left.bin", "m_dataset_metadata.json"] }

/-- A resource whose left-JPG target path is already among its local paths. -/
def rC10 : Resource :=
  { resW with local_paths :=
      ["a_left.bin", "a_right.bin", "m_dataset_metadata.json", "out/ds/ds_left.jpg"] }

/-- A prior completion record of this extractor, already listing one of the
identifiers the next run will upload again. -/
def docOld : Doc :=
  ⟨some "http://clowder/extractors/terra.stereo-rgb.bin2tif",
   some ⟨false, some ["old1", "out/ds/ds_left.jpg#id"]⟩⟩

/-- A metadata document by an unrelated agent. -/
def docOther : Doc := ⟨some "someone-else", some ⟨true, none⟩⟩

/-- A starting state whose remote store holds a prior completion record. -/
def stRec : St := { stW with remote := [docOther, docOld] }

/-- A starting state where only the left TIFF pre-exists. -/
def stA : St := { stW with fs := ["out/ds/ds_left.tif"] }

/-- A starting state where only the left JPG pre-exists. -/
def stC : St := { stW with fs := ["out/ds/ds_left.jpg"] }

/-- A starting state where both left outputs pre-exist. -/
def stD : St := { stW with fs := ["out/ds/ds_left.jpg", "out/ds/ds_left.tif"] }

/-! Helper lemmas about the filter's loops. -/

lemma scanLR_fst_of_no_left (files : List FileEntry)
    (h : ∀ f ∈ files, ∀ n, f.filename = some n → endsWithS n "_left.bin" = false) :
    ∀ acc : Bool × Bool, (files.foldl scanLRStep acc).1 = acc.1 := by
  induction files with
  | nil => intro acc; rfl
  | cons f rest ih =>
      intro acc
      have hrest : ∀ g ∈ rest, ∀ n, g.filename = some n →
          endsWithS n "_left.bin" = false := fun g hg => h g (by simp [hg])
      simp only [List.foldl_cons]
      rw [ih hrest]
      cases hm : f.filename with
      | none => simp [scanLRStep, hm]
      | some n =>
          have hf := h f (by simp) n hm
          unfold scanLRStep
          rw [hm]
          dsimp only
          rw [if_neg (by simp [hf])]
          split <;> rfl

lemma scanLR_snd_of_no_right (files : List FileEntry)
    (h : ∀ f ∈ files, ∀ n, f.filename = some n → endsWithS n "_right.bin" = false) :
    ∀ acc : Bool × Bool, (files.foldl scanLRStep acc).2 = acc.2 := by
  induction files with
  | nil => intro acc; rfl
  | cons f rest ih =>
      intro acc
      have hrest : ∀ g ∈ rest, ∀ n, g.filename = some n →
          endsWithS n "_right.bin" = false := fun g hg => h g (by simp [hg])
      simp only [List.foldl_cons]
      rw [ih hrest]
      cases hm : f.filename with
      | none => simp [scanLRStep, hm]
      | some n =>
          have hf := h f (by simp) n hm
          unfold scanLRStep
          rw [hm]
          dsimp only
          split
          · rfl
          · rw [if_neg (by simp [hf])]

lemma metaScan_isSome_eq (ow : Bool) (name : String) :
    ∀ (md : List Doc) (fm c : Bool), metaScan ow name md fm = some c →
      c = (fm || md.any hasLemnatecKey) := by
  intro md
  induction md with
  | nil =>
      intro fm c h
      simp only [metaScan, Option.some.injEq] at h
      simp [← h]
  | cons m rest ih =>
      intro fm c h
      by_cases hc : ¬ (ow = true) ∧ agentMatches name m = true
      · simp only [metaScan, if_pos hc] at h
        exact absurd h (by simp)
      · simp only [metaScan, if_neg hc] at h
        have := ih (fm || hasLemnatecKey m) c h
        simp [this, List.any_cons, Bool.or_assoc]

lemma metaScan_true (name : String) :
    ∀ (md : List Doc) (fm : Bool),
      metaScan true name md fm = some (fm || md.any hasLemnatecKey) := by
  intro md
  induction md with
  | nil => intro fm; simp [metaScan]
  | cons m rest ih =>
      intro fm
      simp only [metaScan]
      rw [if_neg (by simp)]
      rw [ih (fm || hasLemnatecKey m)]
      simp [List.any_cons, Bool.or_assoc]

/-! Claims C6 to C9 about the eligibility filter. -/

/-- C6: for every resource whose file list lacks a filename ending in
`_left.bin` or lacks a filename ending in `_right.bin`, the eligibility
filter returns the ignore verdict. -/
theorem c6_missing_bin_ignores (env : Env) (cfg : Config) (isLatest : Bool)
    (fs : List String) (r : Resource) (md : List Doc)
    (h : (∀ f ∈ r.files, ∀ n, f.filename = some n → endsWithS n "_left.bin" = false) ∨
         (∀ f ∈ r.files, ∀ n, f.filename = some n → endsWithS n "_right.bin" = false)) :
    checkMessage env cfg isLatest fs r md = .ignore := by
  have hff : ¬ ((scanLR r.files).1 = true ∧ (scanLR r.files).2 = true) := by
    rcases h with h | h
    · have h1 : (scanLR r.files).1 = false := scanLR_fst_of_no_left r.files h (false, false)
      intro hc
      rw [h1] at hc
      exact absurd hc.1 (by simp)
    · have h1 : (scanLR r.files).2 = false := scanLR_snd_of_no_right r.files h (false, false)
      intro hc
      rw [h1] at hc
      exact absurd hc.2 (by simp)
  unfold checkMessage
  rcases hop : outPaths env cfg r.datasetName with ⟨a, b, c, d⟩
  by_cases hl : isLatest = true
  · simp [hl, hff]
  · simp [hl]

/-- C6 witness: the concrete resource `rW6` (left binary only) is ignored. -/
theorem c6_witness : checkMessage envW cfgW true [] rW6 [] = CheckMessage.ignore := by
  apply c6_missing_bin_ignores
  right
  intro f hf n hn
  have hfs : rW6.files = [⟨some "a_left.bin"⟩, ⟨none⟩] := rfl
  rw [hfs] at hf
  simp only [List.mem_cons, List.not_mem_nil, or_false] at hf
  rcases hf with hf | hf <;> subst hf
  · simp only [Option.some.injEq] at hn
    subst hn
    decide
  · simp at hn

/-- C7: with both binaries present, remote metadata without any document
carrying the measurement-metadata key yields ignore, and the download verdict
is returned only when the left file, the right file and the required metadata
are all found. -/
theorem c7_metadata_gate (env : Env) (cfg : Config) (isLatest : Bool)
    (fs : List String) (r : Resource) (md : List Doc) :
    ((scanLR r.files).1 = true → (scanLR r.files).2 = true →
      (∀ m ∈ md, hasLemnatecKey m = false) →
      checkMessage env cfg isLatest fs r md = .ignore) ∧
    (checkMessage env cfg isLatest fs r md = .download →
      (scanLR r.files).1 = true ∧ (scanLR r.files).2 = true ∧
        ∃ m ∈ md, hasLemnatecKey m = true) := by
  constructor
  · intro hfl hfr hkeys
    have hany : md.any hasLemnatecKey = false := by
      rw [List.any_eq_false]
      intro m hm
      simp [hkeys m hm]
    unfold checkMessage
    rcases hop : outPaths env cfg r.datasetName with ⟨a, b, c, d⟩
    rcases hms : metaScan cfg.overwrite cfg.extractorName md false with _ | fm
    · simp [hms]
    · have hfm := metaScan_isSome_eq _ _ md false fm hms
      rw [hany] at hfm
      simp only [Bool.or_false] at hfm
      simp [hms, hfm]
  · intro hd
    unfold checkMessage at hd
    rcases hop : outPaths env cfg r.datasetName with ⟨a, b, c, d⟩
    rw [hop] at hd
    by_cases hl : isLatest = true
    · by_cases h1 : (scanLR r.files).1 = true
      · by_cases h2 : (scanLR r.files).2 = true
        · refine ⟨h1, h2, ?_⟩
          by_cases h3 : ¬ (cfg.overwrite = true) ∧ (a ∈ fs ∧ c ∈ fs ∧ b ∈ fs ∧ d ∈ fs)
          · simp [hl, h1, h2, h3] at hd
          · rcases hms : metaScan cfg.overwrite cfg.extractorName md false with _ | fm
            · simp [hl, h1, h2, h3, hms] at hd
            · have hfm := metaScan_isSome_eq _ _ md false fm hms
              simp only [Bool.false_or] at hfm
              by_cases h4 : md.any hasLemnatecKey = true
              · rcases List.any_eq_true.mp h4 with ⟨m, hm, hk⟩
                exact ⟨m, hm, hk⟩
              · rw [Bool.not_eq_true] at h4
                rw [h4] at hfm
                simp [hl, h1, h2, h3, hms, hfm] at hd
        · simp [hl, h1, h2] at hd
      · simp [hl, h1] at hd
    · simp [hl] at hd

/-- C7 witness: both binaries present, no key-carrying document. -/
theorem c7_witness : checkMessage envW cfgW true [] resW [docNoKey] = CheckMessage.ignore :=
  (c7_metadata_gate envW cfgW true [] resW [docNoKey]).1 rfl rfl (by decide)

/-- C8: when all four target outputs already exist on disk and the overwrite
flag is false, the filter returns ignore regardless of the remote metadata. -/
theorem c8_outputs_exist_ignores (env : Env) (cfg : Config) (isLatest : Bool)
    (fs : List String) (r : Resource) (md : List Doc) (a b c d : String)
    (hov : cfg.overwrite = false)
    (hop : outPaths env cfg r.datasetName = (a, b, c, d))
    (h1 : a ∈ fs) (h2 : b ∈ fs) (h3 : c ∈ fs) (h4 : d ∈ fs) :
    checkMessage env cfg isLatest fs r md = .ignore := by
  unfold checkMessage
  rw [hop]
  by_cases hl : isLatest = true
  · by_cases hfl : ((scanLR r.files).1 = true ∧ (scanLR r.files).2 = true)
    · simp [hl, hfl.1, hfl.2, hov, h1, h2, h3, h4]
    · simp [hl, hfl]
  · simp [hl]

/-- C8 witness: all four outputs of `ds` on disk, overwrite false, ignored
even with a key-carrying metadata document present. -/
theorem c8_witness : checkMessage envW cfgW true fsAll resW [docKey] = CheckMessage.ignore := by
  apply c8_outputs_exist_ignores envW cfgW true fsAll resW [docKey]
    "out/ds/ds_left.jpg" "out/ds/ds_left.tif" "out/ds/ds_right.jpg" "out/ds/ds_right.tif"
    rfl rfl
  all_goals decide

/-- C9: with the overwrite flag set, the filter never short-circuits on
pre-existing outputs or on a matching authoring agent; its verdict is decided
solely by the staleness oracle, the two binaries and the metadata-content
check. -/
theorem c9_overwrite_no_shortcircuit (env : Env) (cfg : Config) (isLatest : Bool)
    (fs : List String) (r : Resource) (md : List Doc)
    (hov : cfg.overwrite = true) :
    checkMessage env cfg isLatest fs r md =
      (if isLatest = true ∧ (scanLR r.files).1 = true ∧ (scanLR r.files).2 = true ∧
          md.any hasLemnatecKey = true
       then CheckMessage.download else CheckMessage.ignore) := by
  unfold checkMessage
  rcases hop : outPaths env cfg r.datasetName with ⟨a, b, c, d⟩
  cases isLatest <;> cases hfl : (scanLR r.files).1 <;> cases hfr : (scanLR r.files).2 <;>
    cases hany : md.any hasLemnatecKey <;>
      simp [hov, metaScan_true, hfl, hfr, hany]

/-- C9 witness: overwrite set, all outputs on disk and a matching-agent
document present, yet the verdict is download. -/
theorem c9_witness :
    checkMessage envW cfgWo true fsAll resW
      [⟨some "extractors/terra.stereo-rgb.bin2tif", some ⟨false, none⟩⟩, docKey] =
      CheckMessage.download :=
  (c9_overwrite_no_shortcircuit envW cfgWo true fsAll resW
      [⟨some "extractors/terra.stereo-rgb.bin2tif", some ⟨false, none⟩⟩, docKey] rfl).trans
    (by decide)

/-! Helper lemmas about the orchestrator's state primitives. -/

@[simp] lemma mkdirs_fs (st : St) (d : String) : (mkdirs st d).fs = st.fs := by
  unfold mkdirs; split <;> rfl

@[simp] lemma mkdirs_remote (st : St) (d : String) : (mkdirs st d).remote = st.remote := by
  unfold mkdirs; split <;> rfl

@[simp] lemma mkdirs_upls (st : St) (d : String) : (mkdirs st d).upls = st.upls := by
  unfold mkdirs; split <;> rfl

@[simp] lemma mkdirs_recs (st : St) (d : String) : (mkdirs st d).recs = st.recs := by
  unfold mkdirs; split <;> rfl

@[simp] lemma mkdirs_telem (st : St) (d : String) : (mkdirs st d).telem = st.telem := by
  unfold mkdirs; split <;> rfl

@[simp] lemma mkdirs_decL (st : St) (d : String) : (mkdirs st d).decL = st.decL := by
  unfold mkdirs; split <;> rfl

@[simp] lemma mkdirs_decR (st : St) (d : String) : (mkdirs st d).decR = st.decR := by
  unfold mkdirs; split <;> rfl

/-! Claims C1 to C3 about the orchestrator's failure behaviour. -/

/-- C1: when any of the three required inputs (left binary, right binary,
capture metadata) cannot be resolved from the resource's local paths, the
orchestrator aborts with the fatal input-incompleteness error, and at that
point no artifact has been created, no file uploaded, no completion record
written, no telemetry emitted and no binary decoded. -/
theorem c1_missing_input_aborts (env : Env) (cfg : Config) (r : Resource) (st : St)
    (h : (scanInputs env r.local_paths).1 = none ∨
         (scanInputs env r.local_paths).2.1 = none ∨
         (scanInputs env r.local_paths).2.2 = none) :
    (processMessage env cfg r st).2 =
      .error (.valueError "could not locate each of left+right+metadata in processing") ∧
    (processMessage env cfg r st).1.fs = st.fs ∧
    (processMessage env cfg r st).1.upls = st.upls ∧
    (processMessage env cfg r st).1.recs = st.recs ∧
    (processMessage env cfg r st).1.remote = st.remote ∧
    (processMessage env cfg r st).1.telem = st.telem ∧
    (processMessage env cfg r st).1.decL = st.decL ∧
    (processMessage env cfg r st).1.decR = st.decR := by
  rcases hop : outPaths env cfg r.datasetName with ⟨a, b, c, d⟩
  rcases hsc : scanInputs env r.local_paths with ⟨x, y, z⟩
  rw [hsc] at h
  have key : processMessage env cfg r st =
      (mkdirs st (env.getOutputDirectory cfg.outputRoot r.datasetName),
       .error (.valueError "could not locate each of left+right+metadata in processing")) := by
    unfold processMessage
    rw [hop, hsc]
    cases x <;> cases y <;> cases z <;> first | rfl | simp at h
  rw [key]
  refine ⟨rfl, ?_, ?_, ?_, ?_, ?_, ?_, ?_⟩ <;> simp

/-- C1 witness: a resource whose local paths lack the right binary. -/
theorem c1_witness :
    (processMessage envW cfgW rMiss stW).2 =
      .error (.valueError "could not locate each of left+right+metadata in processing") ∧
    (processMessage envW cfgW rMiss stW).1.fs = stW.fs ∧
    (processMessage envW cfgW rMiss stW).1.upls = stW.upls ∧
    (processMessage envW cfgW rMiss stW).1.recs = stW.recs ∧
    (processMessage envW cfgW rMiss stW).1.remote = stW.remote ∧
    (processMessage envW cfgW rMiss stW).1.telem = stW.telem ∧
    (processMessage envW cfgW rMiss stW).1.decL = stW.decL ∧
    (processMessage envW cfgW rMiss stW).1.decR = stW.decR :=
  c1_missing_input_aborts envW cfgW rMiss stW (Or.inr (Or.inl rfl))

/-- C2 counterexample: with both binaries present and a sidecar that parses
but contains no document with the measurement-metadata key, the run aborts
with the explicit input-incompleteness `ValueError` immediately after the
scan (line 150 checks the metadata variable too) and no decode or any later
step runs — refuting the claim that the failure surfaces only as a later
null dereference instead of an immediate explicit error. -/
theorem c2_counterexample :
    (processMessage envW cfgW rNoKey stW).2 =
      .error (.valueError "could not locate each of left+right+metadata in processing") ∧
    (processMessage envW cfgW rNoKey stW).1.decL = 0 ∧
    (processMessage envW cfgW rNoKey stW).1.decR = 0 ∧
    (processMessage envW cfgW rNoKey stW).1.fs = [] :=
  ⟨rfl, rfl, rfl, rfl⟩

/-- C2 amended: when the sidecar scan leaves the metadata value unresolved
(no document carries the key), the run aborts immediately after the scan with
the same explicit input-incompleteness error used for missing files; no later
step dereferences the unresolved metadata value (no decode, no artifact, no
upload, no record). -/
theorem c2_no_key_explicit_abort (env : Env) (cfg : Config) (r : Resource) (st : St)
    (h : (scanInputs env r.local_paths).2.2 = none) :
    (processMessage env cfg r st).2 =
      .error (.valueError "could not locate each of left+right+metadata in processing") ∧
    (processMessage env cfg r st).1.decL = st.decL ∧
    (processMessage env cfg r st).1.decR = st.decR ∧
    (processMessage env cfg r st).1.fs = st.fs ∧
    (processMessage env cfg r st).1.upls = st.upls ∧
    (processMessage env cfg r st).1.recs = st.recs := by
  rcases hop : outPaths env cfg r.datasetName with ⟨a, b, c, d⟩
  rcases hsc : scanInputs env r.local_paths with ⟨x, y, z⟩
  rw [hsc] at h
  dsimp only at h
  subst h
  have key : processMessage env cfg r st =
      (mkdirs st (env.getOutputDirectory cfg.outputRoot r.datasetName),
       .error (.valueError "could not locate each of left+right+metadata in processing")) := by
    unfold processMessage
    rw [hop, hsc]
    cases x <;> cases y <;> rfl
  rw [key]
  refine ⟨rfl, ?_, ?_, ?_, ?_, ?_⟩ <;> simp

/-- C2 amended witness: the concrete key-less sidecar resource. -/
theorem c2_witness :
    (processMessage envW cfgW rNoKey stW).2 =
      .error (.valueError "could not locate each of left+right+metadata in processing") ∧
    (processMessage envW cfgW rNoKey stW).1.decL = stW.decL ∧
    (processMessage envW cfgW rNoKey stW).1.decR = stW.decR ∧
    (processMessage envW cfgW rNoKey stW).1.fs = stW.fs ∧
    (processMessage envW cfgW rNoKey stW).1.upls = stW.upls ∧
    (processMessage envW cfgW rNoKey stW).1.recs = stW.recs :=
  c2_no_key_explicit_abort envW cfgW rNoKey stW rfl

/-- C3: the second orchestrator run right after a completed first run, with
overwrite false (all four outputs now on disk), does NOT complete: both left
steps are skipped, so the `left_image` variable is never assigned and the
unconditional `del left_image` (line 187) raises `UnboundLocalError`.  Before
the crash no artifact is created, nothing is uploaded and nothing decoded,
as the unchanged state shows. -/
theorem c3_second_run_crashes :
    (processMessage envW cfgW resW stW).2.isOk = true ∧
    (processMessage envW cfgW resW ((processMessage envW cfgW resW stW).1)).2 =
      .error (.unboundLocal "left_image") ∧
    (processMessage envW cfgW resW ((processMessage envW cfgW resW stW).1)).1.decL =
      (processMessage envW cfgW resW stW).1.decL ∧
    (processMessage envW cfgW resW ((processMessage envW cfgW resW stW).1)).1.upls =
      (processMessage envW cfgW resW stW).1.upls ∧
    (processMessage envW cfgW resW ((processMessage envW cfgW resW stW).1)).1.fs =
      (processMessage envW cfgW resW stW).1.fs :=
  ⟨rfl, rfl, rfl, rfl, rfl⟩

/-! Helper lemmas about the filesystem and completion-record primitives. -/

lemma mem_insertFile (fs : List String) (p q : String) :
    q ∈ insertFile fs p ↔ q ∈ fs ∨ q = p := by
  unfold insertFile
  split
  · rename_i hp
    constructor
    · exact Or.inl
    · rintro (hq | hq)
      · exact hq
      · exact hq ▸ hp
  · simp [List.mem_append]

lemma mem_removeFile (fs : List String) (p q : String) :
    q ∈ removeFile fs p ↔ q ∈ fs ∧ q ≠ p := by
  unfold removeFile
  simp [List.mem_filter]

lemma filterAgent_eq_nil (name : String) (l : List Doc)
    (h : ∀ m ∈ l, agentMatches name m = false) : filterAgent name l = [] := by
  unfold filterAgent
  rw [List.filter_eq_nil_iff]
  intro m hm
  simp [h m hm]

lemma removeAgentDocs_eq_self (name : String) (l : List Doc)
    (h : ∀ m ∈ l, agentMatches name m = false) : removeAgentDocs name l = l := by
  unfold removeAgentDocs
  rw [List.filter_eq_self]
  intro m hm
  simp [h m hm]

lemma removeAgentDocs_idem (name : String) (l : List Doc) :
    removeAgentDocs name (removeAgentDocs name l) = removeAgentDocs name l := by
  unfold removeAgentDocs
  induction l with
  | nil => rfl
  | cons m rest ih =>
      by_cases h : agentMatches name m = true
      · simp [List.filter_cons, h, ih]
      · simp [List.filter_cons, h, ih]

lemma filterAgent_mem_eq_nil (name : String) (l : List Doc)
    (h : filterAgent name l = []) : ∀ m ∈ l, agentMatches name m = false := by
  intro m hm
  by_contra hc
  rw [Bool.not_eq_false] at hc
  have : m ∈ filterAgent name l := List.mem_filter.mpr ⟨hm, hc⟩
  rw [h] at this
  exact absurd this (List.not_mem_nil m)

lemma recordsLoop_all_match (name : String) :
    ∀ (l : List Doc) (st1 : St) (ids : List String),
      (∀ m ∈ l, agentMatches name m = true) →
      (∀ m ∈ l, m.content.isSome = true) →
      recordsLoop name l st1 ids =
        ((if l = [] then st1
          else { st1 with remote := removeAgentDocs name st1.remote }),
         .ok (ids ++ l.flatMap contentOldIds)) := by
  intro l
  induction l with
  | nil => intro st1 ids _ _; simp [recordsLoop]
  | cons m rest ih =>
      intro st1 ids hma hmc
      have hm : agentMatches name m = true := hma m (by simp)
      rcases hco : m.content with _ | c
      · have hs := hmc m (by simp)
        rw [hco] at hs
        simp at hs
      · unfold recordsLoop
        rw [if_pos hm, hco]
        dsimp only
        rw [ih { st1 with remote := removeAgentDocs name st1.remote }
              (match c.filesCreated with | some L => ids ++ L | none => ids)
              (fun g hg => hma g (by simp [hg]))
              (fun g hg => hmc g (by simp [hg]))]
        by_cases hrest : rest = []
        · subst hrest
          cases hfc : c.filesCreated <;>
            simp [contentOldIds, hco, hfc, List.append_assoc]
        · cases hfc : c.filesCreated <;>
            simp [hrest, contentOldIds, hco, hfc, List.append_assoc,
              removeAgentDocs_idem]

/-! Claim C10 about upload decisions, counters and telemetry. -/

/-- C10 counterexample: in a run on `rC10` (whose left-JPG target path sits
among the resource's local paths), the left JPG did not exist before the run
and is created, yet it is NOT uploaded — the code decides the upload by
membership of the target path in `resource['local_paths']` (line 167), not by
whether the path existed before the run, refuting the claim's upload
criterion. -/
theorem c10_counterexample :
    ("out/ds/ds_left.jpg" ∈ stW.fs ↔ False) ∧
    (processMessage envW cfgW rC10 stW).2 =
      .ok ⟨4, 40, ["out/ds/ds_left.tif#id", "out/ds/ds_right.jpg#id",
                   "out/ds/ds_right.tif#id"]⟩ ∧
    (processMessage envW cfgW rC10 stW).1.upls =
      ["out/ds/ds_left.tif", "out/ds/ds_right.jpg", "out/ds/ds_right.tif"] ∧
    (processMessage envW cfgW rC10 stW).1.fs =
      ["out/ds/ds_left.jpg", "out/ds/ds_left.tif", "out/ds/ds_right.jpg",
       "out/ds/ds_right.tif"] :=
  ⟨by simp [stW], rfl, rfl, rfl⟩

/-- C10 amended: for each of the four artifacts the orchestrator creates
(here all four, forced by overwrite), whether it is uploaded is decided by
whether its target path is absent from the resource's local paths; every
created artifact adds one to the created count and its post-creation file
size to the byte total, and one telemetry record carrying the two totals is
emitted at the end of the run. -/
theorem c10_upload_by_local_paths (env : Env) (cfg : Config) (r : Resource)
    (st : St) (il ir : String) (mdv : Content) (ljpg ltif rjpg rtif : String)
    (hov : cfg.overwrite = true)
    (hop : outPaths env cfg r.datasetName = (ljpg, ltif, rjpg, rtif))
    (hscan : scanInputs env r.local_paths = (some il, some ir, some mdv))
    (hrem : ∀ m ∈ st.remote, agentMatches cfg.extractorName m = false) :
    (processMessage env cfg r st).1.upls =
      st.upls ++ [ljpg, ltif, rjpg, rtif].filter (fun p => decide (p ∉ r.local_paths)) ∧
    (processMessage env cfg r st).2 =
      .ok ⟨4, env.sizeOf ljpg + env.sizeOf ltif + env.sizeOf rjpg + env.sizeOf rtif,
           ([ljpg, ltif, rjpg, rtif].filter
              (fun p => decide (p ∉ r.local_paths))).map env.uploadId⟩ ∧
    (processMessage env cfg r st).1.telem =
      st.telem ++ [(4, env.sizeOf ljpg + env.sizeOf ltif + env.sizeOf rjpg +
        env.sizeOf rtif)] := by
  have hfil : filterAgent cfg.extractorName st.remote = [] :=
    filterAgent_eq_nil cfg.extractorName st.remote hrem
  by_cases h1 : ljpg ∈ r.local_paths <;> by_cases h2 : ltif ∈ r.local_paths <;>
    by_cases h3 : rjpg ∈ r.local_paths <;> by_cases h4 : rtif ∈ r.local_paths <;>
      refine ⟨?_, ?_, ?_⟩ <;>
        simp [processMessage, hop, hscan, jpgBlock, tiffBlock, delImage,
          uploadFile, recordsLoop, bumpDec, hfil, hov, h1, h2, h3, h4]

/-- C10 amended witness: concrete run with overwrite forced. -/
theorem c10_witness :
    (processMessage envW cfgWo resW stW).1.upls =
      stW.upls ++ ["out/ds/ds_left.jpg", "out/ds/ds_left.tif", "out/ds/ds_right.jpg",
        "out/ds/ds_right.tif"].filter (fun p => decide (p ∉ resW.local_paths)) ∧
    (processMessage envW cfgWo resW stW).2 =
      .ok ⟨4, envW.sizeOf "out/ds/ds_left.jpg" + envW.sizeOf "out/ds/ds_left.tif" +
            envW.sizeOf "out/ds/ds_right.jpg" + envW.sizeOf "out/ds/ds_right.tif",
           (["out/ds/ds_left.jpg", "out/ds/ds_left.tif", "out/ds/ds_right.jpg",
             "out/ds/ds_right.tif"].filter
               (fun p => decide (p ∉ resW.local_paths))).map envW.uploadId⟩ ∧
    (processMessage envW cfgWo resW stW).1.telem =
      stW.telem ++ [(4, envW.sizeOf "out/ds/ds_left.jpg" + envW.sizeOf "out/ds/ds_left.tif" +
        envW.sizeOf "out/ds/ds_right.jpg" + envW.sizeOf "out/ds/ds_right.tif")] :=
  c10_upload_by_local_paths envW cfgWo resW stW "a_left.bin" "a_right.bin"
    ⟨true, none⟩ "out/ds/ds_left.jpg" "out/ds/ds_left.tif" "out/ds/ds_right.jpg"
    "out/ds/ds_right.tif" rfl rfl rfl (by simp [stW])

/-! Claim C5 about completion-record replacement. -/

/-- C5: at the end of a successful run, every pre-existing completion record
authored by this extractor is removed from the remote store, its previously
recorded `files_created` lists are appended (in order, without
deduplication) after the identifiers uploaded by this run, and exactly one
new completion record carrying that combined list is uploaded. -/
theorem c5_record_replacement (env : Env) (cfg : Config) (r : Resource)
    (st : St) (il ir : String) (mdv : Content) (ljpg ltif rjpg rtif : String)
    (hov : cfg.overwrite = true)
    (hop : outPaths env cfg r.datasetName = (ljpg, ltif, rjpg, rtif))
    (hscan : scanInputs env r.local_paths = (some il, some ir, some mdv))
    (hl1 : ljpg ∉ r.local_paths) (hl2 : ltif ∉ r.local_paths)
    (hl3 : rjpg ∉ r.local_paths) (hl4 : rtif ∉ r.local_paths)
    (hrem : ∀ m ∈ st.remote, agentMatches cfg.extractorName m = true →
      m.content.isSome = true) :
    (processMessage env cfg r st).2 =
      .ok ⟨4, env.sizeOf ljpg + env.sizeOf ltif + env.sizeOf rjpg + env.sizeOf rtif,
           [env.uploadId ljpg, env.uploadId ltif, env.uploadId rjpg, env.uploadId rtif] ++
             (filterAgent cfg.extractorName st.remote).flatMap contentOldIds⟩ ∧
    (processMessage env cfg r st).1.remote =
      removeAgentDocs cfg.extractorName st.remote ++
        [buildMetadata cfg.host cfg.extractorName
          ([env.uploadId ljpg, env.uploadId ltif, env.uploadId rjpg, env.uploadId rtif] ++
            (filterAgent cfg.extractorName st.remote).flatMap contentOldIds)] ∧
    (processMessage env cfg r st).1.recs =
      st.recs ++
        [buildMetadata cfg.host cfg.extractorName
          ([env.uploadId ljpg, env.uploadId ltif, env.uploadId rjpg, env.uploadId rtif] ++
            (filterAgent cfg.extractorName st.remote).flatMap contentOldIds)] := by
  have hma : ∀ m ∈ filterAgent cfg.extractorName st.remote,
      agentMatches cfg.extractorName m = true :=
    fun m hm => (List.mem_filter.mp hm).2
  have hmc : ∀ m ∈ filterAgent cfg.extractorName st.remote, m.content.isSome = true :=
    fun m hm => hrem m (List.mem_filter.mp hm).1 (List.mem_filter.mp hm).2
  have hloop := recordsLoop_all_match cfg.extractorName
    (filterAgent cfg.extractorName st.remote)
  by_cases hfe : filterAgent cfg.extractorName st.remote = []
  · have hrs : removeAgentDocs cfg.extractorName st.remote = st.remote :=
      removeAgentDocs_eq_self cfg.extractorName st.remote
        (filterAgent_mem_eq_nil cfg.extractorName st.remote hfe)
    refine ⟨?_, ?_, ?_⟩ <;>
      simp [processMessage, hop, hscan, jpgBlock, tiffBlock, delImage,
        uploadFile, recordsLoop, bumpDec, hfe, hrs, hov, hl1, hl2, hl3, hl4]
  · refine ⟨?_, ?_, ?_⟩ <;>
      simp [processMessage, hop, hscan, jpgBlock, tiffBlock, delImage,
        uploadFile, bumpDec, hov, hl1, hl2, hl3, hl4,
        fun st1 ids => hloop st1 ids hma hmc, hfe]

/-- C5 witness: a run over a remote store holding a prior completion record
whose identifier list already shares an identifier with the new uploads; the
combined list keeps the duplicate. -/
theorem c5_witness :
    (processMessage envW cfgWo resW stRec).2 =
      .ok ⟨4, envW.sizeOf "out/ds/ds_left.jpg" + envW.sizeOf "out/ds/ds_left.tif" +
            envW.sizeOf "out/ds/ds_right.jpg" + envW.sizeOf "out/ds/ds_right.tif",
           [envW.uploadId "out/ds/ds_left.jpg", envW.uploadId "out/ds/ds_left.tif",
            envW.uploadId "out/ds/ds_right.jpg", envW.uploadId "out/ds/ds_right.tif"] ++
             (filterAgent cfgWo.extractorName stRec.remote).flatMap contentOldIds⟩ ∧
    (processMessage envW cfgWo resW stRec).1.remote =
      removeAgentDocs cfgWo.extractorName stRec.remote ++
        [buildMetadata cfgWo.host cfgWo.extractorName
          ([envW.uploadId "out/ds/ds_left.jpg", envW.uploadId "out/ds/ds_left.tif",
            envW.uploadId "out/ds/ds_right.jpg", envW.uploadId "out/ds/ds_right.tif"] ++
            (filterAgent cfgWo.extractorName stRec.remote).flatMap contentOldIds)] ∧
    (processMessage envW cfgWo resW stRec).1.recs =
      stRec.recs ++
        [buildMetadata cfgWo.host cfgWo.extractorName
          ([envW.uploadId "out/ds/ds_left.jpg", envW.uploadId "out/ds/ds_left.tif",
            envW.uploadId "out/ds/ds_right.jpg", envW.uploadId "out/ds/ds_right.tif"] ++
            (filterAgent cfgWo.extractorName stRec.remote).flatMap contentOldIds)] :=
  c5_record_replacement envW cfgWo resW stRec "a_left.bin" "a_right.bin"
    ⟨true, none⟩ "out/ds/ds_left.jpg" "out/ds/ds_left.tif" "out/ds/ds_right.jpg"
    "out/ds/ds_right.tif" rfl rfl rfl (by decide) (by decide) (by decide) (by decide)
    (by decide)

/-! Claim C4 about per-side decode counts with overwrite false. -/

/-- C4: with overwrite false, (1) if only the left TIFF pre-exists the run
creates the remaining 3 artifacts, uploads 3 identifiers and decodes the left
binary exactly once (for the JPEG step); (2) when both left outputs are
created the left binary is still decoded only once (the JPEG-step image is
reused by the TIFF step); (3) when the JPEG step is skipped the TIFF step
decodes independently, again exactly once; (4) when both left outputs
pre-exist the left binary is decoded zero times (the run stops at the
unconditional `del left_image`). -/
theorem c4_decode_counts (env : Env) (cfg : Config) (r : Resource)
    (il ir : String) (mdv : Content) (ljpg ltif rjpg rtif : String)
    (st1 st2 st3 st4 : St)
    (hov : cfg.overwrite = false)
    (hop : outPaths env cfg r.datasetName = (ljpg, ltif, rjpg, rtif))
    (hscan : scanInputs env r.local_paths = (some il, some ir, some mdv))
    (hne1 : ljpg ≠ ltif) (hne2 : ljpg ≠ rjpg) (hne3 : ljpg ≠ rtif)
    (hne4 : ltif ≠ rjpg) (hne5 : ltif ≠ rtif) (hne6 : rjpg ≠ rtif)
    (hnt3 : tmpTiffPath r.datasetName ≠ rjpg) (hnt4 : tmpTiffPath r.datasetName ≠ rtif)
    (hlp1 : ljpg ∉ r.local_paths) (hlp2 : ltif ∉ r.local_paths)
    (hlp3 : rjpg ∉ r.local_paths) (hlp4 : rtif ∉ r.local_paths)
    (h1a : ljpg ∉ st1.fs) (h1b : ltif ∈ st1.fs) (h1c : rjpg ∉ st1.fs)
    (h1d : rtif ∉ st1.fs)
    (h1r : ∀ m ∈ st1.remote, agentMatches cfg.extractorName m = false)
    (h2a : ljpg ∉ st2.fs) (h2b : ltif ∉ st2.fs) (h2c : rjpg ∉ st2.fs)
    (h2d : rtif ∉ st2.fs)
    (h2r : ∀ m ∈ st2.remote, agentMatches cfg.extractorName m = false)
    (h3a : ljpg ∈ st3.fs) (h3b : ltif ∉ st3.fs) (h3c : rjpg ∉ st3.fs)
    (h3d : rtif ∉ st3.fs)
    (h3r : ∀ m ∈ st3.remote, agentMatches cfg.extractorName m = false)
    (h4a : ljpg ∈ st4.fs) (h4b : ltif ∈ st4.fs) :
    ((processMessage env cfg r st1).2 =
      .ok ⟨3, env.sizeOf ljpg + env.sizeOf rjpg + env.sizeOf rtif,
           [env.uploadId ljpg, env.uploadId rjpg, env.uploadId rtif]⟩ ∧
     (processMessage env cfg r st1).1.upls = st1.upls ++ [ljpg, rjpg, rtif] ∧
     (processMessage env cfg r st1).1.decL = st1.decL + 1 ∧
     (processMessage env cfg r st1).1.decR = st1.decR + 1) ∧
    ((processMessage env cfg r st2).2 =
      .ok ⟨4, env.sizeOf ljpg + env.sizeOf ltif + env.sizeOf rjpg + env.sizeOf rtif,
           [env.uploadId ljpg, env.uploadId ltif, env.uploadId rjpg,
            env.uploadId rtif]⟩ ∧
     (processMessage env cfg r st2).1.decL = st2.decL + 1) ∧
    ((processMessage env cfg r st3).2 =
      .ok ⟨3, env.sizeOf ltif + env.sizeOf rjpg + env.sizeOf rtif,
           [env.uploadId ltif, env.uploadId rjpg, env.uploadId rtif]⟩ ∧
     (processMessage env cfg r st3).1.decL = st3.decL + 1) ∧
    ((processMessage env cfg r st4).2 = .error (.unboundLocal "left_image") ∧
     (processMessage env cfg r st4).1.decL = st4.decL ∧
     (processMessage env cfg r st4).1.upls = st4.upls ∧
     (processMessage env cfg r st4).1.fs = st4.fs) := by
  have hfil1 := filterAgent_eq_nil cfg.extractorName st1.remote h1r
  have hfil2 := filterAgent_eq_nil cfg.extractorName st2.remote h2r
  have hfil3 := filterAgent_eq_nil cfg.extractorName st3.remote h3r
  refine ⟨⟨?_, ?_, ?_, ?_⟩, ⟨?_, ?_⟩, ⟨?_, ?_⟩, ⟨?_, ?_, ?_, ?_⟩⟩ <;>
    simp [processMessage, hop, hscan, jpgBlock, tiffBlock, delImage, uploadFile,
      recordsLoop, bumpDec, mem_insertFile, mem_removeFile, hov,
      hfil1, hfil2, hfil3, hlp1, hlp2, hlp3, hlp4,
      h1a, h1b, h1c, h1d, h2a, h2b, h2c, h2d,
      h3a, h3b, h3c, h3d, h4a, h4b,
      hne1, hne2, hne3, hne4, hne5, hne6,
      Ne.symm hne1, Ne.symm hne2, Ne.symm hne3, Ne.symm hne4, Ne.symm hne5,
      Ne.symm hne6, hnt3, hnt4, Ne.symm hnt3, Ne.symm hnt4]

/-- C4 witness: the four concrete scenarios (only left TIFF pre-existing,
no left output, only left JPG, both left outputs). -/
theorem c4_witness :
    (processMessage envW cfgW resW stA).2 =
      .ok ⟨3, envW.sizeOf "out/ds/ds_left.jpg" + envW.sizeOf "out/ds/ds_right.jpg" +
            envW.sizeOf "out/ds/ds_right.tif",
           [envW.uploadId "out/ds/ds_left.jpg", envW.uploadId "out/ds/ds_right.jpg",
            envW.uploadId "out/ds/ds_right.tif"]⟩ ∧
    (processMessage envW cfgW resW stW).1.decL = stW.decL + 1 ∧
    (processMessage envW cfgW resW stC).1.decL = stC.decL + 1 ∧
    (processMessage envW cfgW resW stD).2 = .error (.unboundLocal "left_image") := by
  have h := c4_decode_counts envW cfgW resW "a_left.bin" "a_right.bin" ⟨true, none⟩
    "out/ds/ds_left.jpg" "out/ds/ds_left.tif" "out/ds/ds_right.jpg" "out/ds/ds_right.tif"
    stA stW stC stD rfl rfl rfl (by decide) (by decide) (by decide) (by decide)
    (by decide) (by decide) (by decide) (by decide) (by decide) (by decide)
    (by decide) (by decide) (by decide) (by decide) (by decide) (by decide)
    (by decide) (by decide) (by decide) (by decide) (by decide) (by decide)
    (by decide) (by decide) (by decide) (by decide) (by decide) (by decide)
    (by decide)
  exact ⟨h.1.1, h.2.1.2, h.2.2.1.2, h.2.2.2.1⟩

end Bin2Tif
